import Mathlib

/-!
Verification of the speech-confidence-coach repository against its
natural-language specification.

The repository contains a Streamlit UI (`src/app.py`) whose analysis step is a
placeholder, plus API test scripts.  The speech-metrics extractor
(`compute_metrics`, `score_breakdown`) described by the specification has no
implementation in the source; those operations are modelled here from the
specification's own wording.  Session state and the placeholder analysis
pipeline are embedded from `src/app.py`; the `CoachingFeedback` validation
model is embedded from `tests/test_openai.py`.

Floating-point quantities of the design (seconds, words-per-minute) are
modelled as rationals.
-/

set_option autoImplicit false

namespace SpeechCoach

/-- A transcribed token with text and start/end timestamps in seconds
(spec §3: `Word`). -/
structure Word where
  text : String
  start : ℚ
  «end» : ℚ
deriving DecidableEq, Repr

/-- Output aggregate of the metrics extractor (spec §3: `MetricsReport`). -/
structure MetricsReport where
  words_per_minute : ℚ
  filler_count : ℕ
  filler_rate_per_minute : ℚ
  average_pause_seconds : ℚ
  long_pause_count : ℕ
  total_duration_seconds : ℚ
deriving DecidableEq, Repr

/-- Error taxonomy of the extractor (spec §7): malformed timestamps or
negative duration. -/
inductive MetricsError where
  | InvalidInput
deriving DecidableEq, Repr

/-- Lowercase a word token and strip punctuation, keeping alphanumeric
characters only (spec §4.1: "normalized word tokens with punctuation
stripped"). -/
def normalizeToken (s : String) : String :=
  String.mk ((s.data.map Char.toLower).filter Char.isAlphanum)

/-- Split a character sequence at spaces; `acc` holds the (reversed)
characters of the word being read. -/
def wordsOfChars : List Char → List Char → List String
  | [], acc => [String.mk acc.reverse]
  | c :: cs, acc =>
    if c = ' ' then String.mk acc.reverse :: wordsOfChars cs []
    else wordsOfChars cs (c :: acc)

/-- Split a (possibly multi-word) filler-lexicon phrase into its normalized
tokens. -/
def phraseTokens (p : String) : List String :=
  ((wordsOfChars p.data []).map normalizeToken).filter (fun t => t ≠ "")

/-- `tokensMatch p ws` holds when the phrase `p` matches the first
`p.length` words of `ws`. -/
def tokensMatch : List String → List String → Bool
  | [], _ => true
  | _ :: _, [] => false
  | p :: ps, w :: ws => p == w && tokensMatch ps ws

/-- Length of the longest lexicon phrase matching at the head of `ws`
(none if no phrase matches).  Empty phrases never match. -/
def bestMatch (lex : List (List String)) (ws : List String) : Option ℕ :=
  lex.foldl
    (fun acc phrase =>
      if phrase ≠ [] ∧ tokensMatch phrase ws then
        match acc with
        | some m => some (max m phrase.length)
        | none => some phrase.length
      else acc)
    none

/-- Greedy scan for `countFillersFrom`, structurally recursive on a fuel
argument that bounds the number of scan steps.  On a match of length `n`
the scan consumes the whole phrase; otherwise it advances one word. -/
def countFillersAux (lex : List (List String)) : ℕ → List String → ℕ
  | 0, _ => 0
  | _, [] => 0
  | fuel + 1, w :: ws =>
    match bestMatch lex (w :: ws) with
    | some n => 1 + countFillersAux lex fuel (ws.drop (n - 1))
    | none => countFillersAux lex fuel ws

/-- Modelled from the spec: greedy left-to-right, non-overlapping count of
filler occurrences over the normalized word sequence (spec §4.1: "sliding
window match over consecutive Words", "non-overlapping, greedy
left-to-right").  `lex` is the filler lexicon, each phrase already split
into normalized tokens.  The fuel `ws.length` is enough for the whole
scan, since each step consumes at least one word. -/
def countFillersFrom (lex : List (List String)) (ws : List String) : ℕ :=
  countFillersAux lex ws.length ws

/-- Modelled from the spec: the clamped inter-word gaps, one per consecutive
Word pair, computed as `next.start - prev.end` with negative values clamped
to 0 (spec §4.1: pause computation). -/
def rawPauses : List Word → List ℚ
  | w1 :: w2 :: rest => max 0 (w2.start - w1.«end») :: rawPauses (w2 :: rest)
  | _ => []

/-- The gaps that count as pauses: clamped-to-zero gaps are excluded
(spec §4.1: clamped values "do not count as pauses"). -/
def nonzeroPauses (ps : List ℚ) : List ℚ :=
  ps.filter (fun p => p ≠ 0)

/-- Arithmetic mean over all non-zero pauses, 0 if none exist (spec §4.1). -/
def averagePause (ps : List ℚ) : ℚ :=
  let nz := nonzeroPauses ps
  if nz = [] then 0 else nz.sum / (nz.length : ℚ)

/-- Count of pauses at least the long-pause threshold.  The boundary is
inclusive: a pause of exactly the threshold is classified as long
(spec §8 boundary property). -/
def countLong (threshold : ℚ) (ps : List ℚ) : ℕ :=
  ((nonzeroPauses ps).filter (fun p => threshold ≤ p)).length

/-- Modelled from the spec: `compute_metrics(transcript,
total_duration_seconds, filler_lexicon)` of spec §4.1, the speech-metrics
extractor that does not exist in the source.  Fails with `InvalidInput` when
the duration is negative or any Word has `end < start`; guards the
words-per-minute and filler-rate divisions against zero duration; derives
pause statistics from clamped inter-word gaps.  The long-pause threshold
(default 1.0s in the spec) is passed explicitly. -/
def compute_metrics (transcript : List Word) (total_duration_seconds : ℚ)
    (filler_lexicon : List String) (long_pause_threshold : ℚ) :
    Except MetricsError MetricsReport :=
  if total_duration_seconds < 0 then .error .InvalidInput
  else if transcript.any (fun w => w.«end» < w.start) then .error .InvalidInput
  else
    let word_count : ℕ := transcript.length
    let words_per_minute : ℚ :=
      if total_duration_seconds = 0 then 0
      else (word_count : ℚ) / (total_duration_seconds / 60)
    let filler_count : ℕ :=
      countFillersFrom ((filler_lexicon.map phraseTokens).filter (fun p => p ≠ []))
        (transcript.map (fun w => normalizeToken w.text))
    let filler_rate_per_minute : ℚ :=
      if total_duration_seconds = 0 then 0
      else (filler_count : ℚ) / (total_duration_seconds / 60)
    let pauses := rawPauses transcript
    .ok
      { words_per_minute := words_per_minute
        filler_count := filler_count
        filler_rate_per_minute := filler_rate_per_minute
        average_pause_seconds := averagePause pauses
        long_pause_count := countLong long_pause_threshold pauses
        total_duration_seconds := total_duration_seconds }

/-- Coarse delivery-score breakdown, one 1..5 integer per dimension
(spec §3: `ScoreBreakdown`). -/
structure ScoreBreakdown where
  pace : ℤ
  clarity_proxy : ℤ
  fluency : ℤ
  conciseness : ℤ
  overall : ℤ
deriving DecidableEq, Repr

/-- Clamp an integer score into the 1..5 range (spec §4.1: "floored at 1",
spec §3 invariant: every score in [1,5]). -/
def clamp15 (n : ℤ) : ℤ :=
  max 1 (min 5 n)

/-- Modelled from the spec: `score_breakdown(report, target_wpm_range,
max_filler_rate)` of spec §4.1, absent from the source.  A deterministic
rule-based mapping: pace is 5 inside the target WPM range and degrades one
step per 20-WPM deviation outside it; fluency degrades by breakpoints at
multiples of `max_filler_rate`; clarity uses the average-pause band and
conciseness the duration budget of the surrounding UI; `overall` is the
round-half-up average of the four dimensions.  Every dimension is clamped
into 1..5. -/
def score_breakdown (report : MetricsReport)
    (target_wpm_lo target_wpm_hi : ℚ) (max_filler_rate : ℚ) : ScoreBreakdown :=
  let wpm := report.words_per_minute
  let paceDev : ℚ :=
    if wpm < target_wpm_lo then target_wpm_lo - wpm
    else if target_wpm_hi < wpm then wpm - target_wpm_hi
    else 0
  let rate := report.filler_rate_per_minute
  let fluencyRaw : ℤ :=
    if rate ≤ max_filler_rate then 5
    else if rate ≤ 2 * max_filler_rate then 4
    else if rate ≤ 3 * max_filler_rate then 3
    else if rate ≤ 4 * max_filler_rate then 2
    else 1
  let pace := clamp15 (5 - ⌈paceDev / 20⌉)
  let clarity_proxy := clamp15 (if report.average_pause_seconds ≤ 1 then 5
    else 5 - ⌈report.average_pause_seconds - 1⌉)
  let fluency := clamp15 fluencyRaw
  let conciseness := clamp15 (if report.total_duration_seconds ≤ 120 then 5
    else 5 - ⌈(report.total_duration_seconds - 120) / 30⌉)
  let overall := clamp15 ⌊((pace + clarity_proxy + fluency + conciseness : ℚ)) / 4 + 1 / 2⌋
  { pace := pace, clarity_proxy := clarity_proxy, fluency := fluency,
    conciseness := conciseness, overall := overall }

/-- Python values as far as the app's session-state dictionary needs them:
`None`, strings, integers, rationals (for Python floats), lists and
string-keyed dictionaries. -/
inductive PyVal where
  | pyNone
  | str (s : String)
  | int (n : ℤ)
  | rat (q : ℚ)
  | list (xs : List PyVal)
  | dict (entries : List (String × PyVal))

/-- Streamlit's `st.session_state`, a string-keyed mutable mapping; `none`
means the key is absent. -/
def SessionState : Type := String → Option PyVal

/-- The hard-coded `scores` sub-dictionary of the placeholder results
(`src/app.py` lines 140-146). -/
def placeholder_scores : List (String × PyVal) :=
  [("pace", .int 4), ("clarity", .int 3), ("fluency", .int 2),
   ("conciseness", .int 3), ("overall", .int 3)]

/-- The hard-coded results dictionary the placeholder analysis stores
(`src/app.py` lines 130-164). -/
def placeholder_results : PyVal :=
  .dict
    [("transcript", .str "Um, so I think my biggest strength is, uh, definitely problem-solving. I really enjoy, like, working through complex challenges and finding creative solutions. You know, in my previous role..."),
     ("metrics", .dict
       [("words_per_minute", .int 145),
        ("filler_count", .int 8),
        ("filler_rate", .rat (52 / 10)),
        ("average_pause", .rat (8 / 10)),
        ("long_pauses", .int 3),
        ("total_duration", .int 92)]),
     ("scores", .dict placeholder_scores),
     ("feedback", .dict
       [("strengths", .list
         [.str "Good speaking pace - not too fast or slow",
          .str "Clear articulation and pronunciation",
          .str "Confident tone throughout response"]),
        ("improvements", .list
         [.str "Reduce filler words (\x27um\x27, \x27uh\x27, \x27like\x27) - found 8 instances",
          .str "Minimize long pauses to maintain flow",
          .str "Structure response more clearly with specific examples"]),
        ("practice_drills", .list
         [.str "Re-record this response in under 60 seconds without filler words",
          .str "Practice the STAR method: Situation, Task, Action, Result",
          .str "Record yourself reading for 2 minutes to improve fluency"])])]

/-- Seconds slept by the placeholder analysis to simulate processing time
(`src/app.py` line 128: `time.sleep(2)`). -/
def analysis_sleep_seconds : ℕ := 2

/-- `analyze_audio` of `src/app.py` lines 117-168 as a session-state
transform.  It receives the current audio file and the current wall-clock
timestamp; it stores the fixed placeholder results dictionary under
`analysis_results` and a timestamp-derived id under `current_session`.  The
audio value is never inspected. -/
def analyze_audio (audio : PyVal) (now : String) (s : SessionState) :
    SessionState :=
  fun k =>
    if k = "analysis_results" then some placeholder_results
    else if k = "current_session" then some (.str (String.append "session_" now))
    else s k

/-- The three keys `init_session_state` gives defaults to
(`src/app.py` lines 19-26). -/
def session_default_keys : List String :=
  ["current_session", "analysis_results", "audio_file"]

/-- One `if key not in st.session_state: st.session_state.key = None`
statement of `init_session_state`. -/
def setIfAbsent (s : SessionState) (k : String) : SessionState :=
  match s k with
  | none => fun j => if j = k then some PyVal.pyNone else s j
  | some _ => s

/-- `init_session_state` of `src/app.py` lines 19-26: give each of the three
session keys the default `None` when it is absent. -/
def init_session_state (s : SessionState) : SessionState :=
  setIfAbsent (setIfAbsent (setIfAbsent s "current_session")
    "analysis_results") "audio_file"

/-- The structured-feedback model of `tests/test_openai.py` lines 13-18:
three lists of strings and an overall score. -/
structure CoachingFeedback where
  strengths : List String
  improvements : List String
  practice_drills : List String
  overall_score : ℤ
deriving DecidableEq, Repr

/-- The validation the pydantic `CoachingFeedback` model performs on
construction: the typed fields are lists of strings (enforced here by the
Lean types) and `overall_score` carries `ge=1, le=5`.  No constraint is
placed on the lengths of the three lists. -/
def CoachingFeedback.valid (f : CoachingFeedback) : Bool :=
  1 ≤ f.overall_score && f.overall_score ≤ 5

/-! ## Helper lemmas -/

lemma compute_metrics_eq_ok (t : List Word) (d : ℚ) (lex : List String) (th : ℚ)
    (h1 : ¬ d < 0) (h2 : ¬ t.any (fun w => w.«end» < w.start) = true) :
    compute_metrics t d lex th = .ok
      { words_per_minute := if d = 0 then 0 else (t.length : ℚ) / (d / 60)
        filler_count := countFillersFrom ((lex.map phraseTokens).filter (fun p => p ≠ []))
          (t.map (fun w => normalizeToken w.text))
        filler_rate_per_minute := if d = 0 then 0
          else ((countFillersFrom ((lex.map phraseTokens).filter (fun p => p ≠ []))
            (t.map (fun w => normalizeToken w.text)) : ℚ)) / (d / 60)
        average_pause_seconds := averagePause (rawPauses t)
        long_pause_count := countLong th (rawPauses t)
        total_duration_seconds := d } := by
  unfold compute_metrics
  rw [if_neg h1, if_neg h2]

lemma clamp15_bounds (n : ℤ) : 1 ≤ clamp15 n ∧ clamp15 n ≤ 5 := by
  constructor
  · exact le_max_left 1 _
  · exact max_le (by norm_num) (min_le_left 5 n)

lemma setIfAbsent_apply (s : SessionState) (k j : String) :
    setIfAbsent s k j = if j = k then some ((s j).getD PyVal.pyNone) else s j := by
  unfold setIfAbsent
  by_cases hjk : j = k
  · subst hjk
    cases h : s j <;> simp [h]
  · cases h : s k <;> simp [hjk, h]

lemma init_session_state_apply (s : SessionState) (j : String) :
    init_session_state s j =
      if j ∈ session_default_keys then some ((s j).getD PyVal.pyNone) else s j := by
  simp only [init_session_state, setIfAbsent_apply, session_default_keys]
  by_cases h1 : j = "audio_file" <;> by_cases h2 : j = "analysis_results" <;>
    by_cases h3 : j = "current_session" <;> simp_all

lemma rawPauses_eq_zip (t : List Word) :
    rawPauses t = (t.zip t.tail).map (fun pr => max 0 (pr.2.start - pr.1.«end»)) := by
  induction t with
  | nil => rfl
  | cons w ws ih =>
    cases ws with
    | nil => rfl
    | cons w2 rest =>
      simp only [rawPauses, List.tail_cons, List.zip_cons_cons, List.map_cons] at ih ⊢
      rw [ih]

lemma rawPauses_nonneg (t : List Word) (p : ℚ) (h : p ∈ rawPauses t) : 0 ≤ p := by
  induction t with
  | nil => simp [rawPauses] at h
  | cons w ws ih =>
    cases ws with
    | nil => simp [rawPauses] at h
    | cons w2 rest =>
      simp only [rawPauses, List.mem_cons] at h
      rcases h with h | h
      · exact h ▸ le_max_left 0 _
      · exact ih (by simpa [rawPauses] using h)

/-! ## Claim theorems -/

/-- C1: the analysis step is a constant function.  `analyze_audio` sleeps two
seconds (`analysis_sleep_seconds = 2`) and then stores the one fixed,
hard-coded results dictionary under `analysis_results`, whatever audio
value, timestamp and prior session state it runs with. -/
theorem analyze_audio_constant_results :
    analysis_sleep_seconds = 2 ∧
    ∀ (audio : PyVal) (now : String) (s : SessionState),
      analyze_audio audio now s "analysis_results" = some placeholder_results :=
  ⟨rfl, fun _ _ _ => rfl⟩

/-- C2: every score is in [1,5].  For every `MetricsReport` and every choice
of target WPM range and maximal filler rate, all five fields of the
resulting `ScoreBreakdown` lie in 1..5; the placeholder scores dictionary
satisfies the same invariant, and a `CoachingFeedback` value accepted by the
pydantic validation has its overall score in 1..5. -/
theorem score_breakdown_in_range :
    (∀ (r : MetricsReport) (lo hi mfr : ℚ),
       (1 ≤ (score_breakdown r lo hi mfr).pace ∧ (score_breakdown r lo hi mfr).pace ≤ 5) ∧
       (1 ≤ (score_breakdown r lo hi mfr).clarity_proxy ∧
         (score_breakdown r lo hi mfr).clarity_proxy ≤ 5) ∧
       (1 ≤ (score_breakdown r lo hi mfr).fluency ∧ (score_breakdown r lo hi mfr).fluency ≤ 5) ∧
       (1 ≤ (score_breakdown r lo hi mfr).conciseness ∧
         (score_breakdown r lo hi mfr).conciseness ≤ 5) ∧
       (1 ≤ (score_breakdown r lo hi mfr).overall ∧ (score_breakdown r lo hi mfr).overall ≤ 5)) ∧
    (∀ kv ∈ placeholder_scores, ∃ n : ℤ, kv.2 = PyVal.int n ∧ 1 ≤ n ∧ n ≤ 5) ∧
    (∀ f : CoachingFeedback, f.valid = true → 1 ≤ f.overall_score ∧ f.overall_score ≤ 5) := by
  refine ⟨?_, ?_, ?_⟩
  · intro r lo hi mfr
    unfold score_breakdown
    exact ⟨clamp15_bounds _, clamp15_bounds _, clamp15_bounds _, clamp15_bounds _,
      clamp15_bounds _⟩
  · intro kv hkv
    simp only [placeholder_scores, List.mem_cons, List.not_mem_nil, or_false] at hkv
    rcases hkv with h | h | h | h | h <;> subst h <;> exact ⟨_, rfl, by norm_num, by norm_num⟩
  · intro f h
    simpa [CoachingFeedback.valid] using h

/-- Witness for C2 at the placeholder's pace entry and a concrete accepted
feedback value. -/
theorem score_breakdown_in_range_witness :
    (∃ n : ℤ, (("pace", PyVal.int 4) : String × PyVal).2 = PyVal.int n ∧ 1 ≤ n ∧ n ≤ 5) ∧
    (1 ≤ ({ strengths := ["a"], improvements := ["b"],
              practice_drills := ["c"], overall_score := 3 } :
            CoachingFeedback).overall_score ∧
      ({ strengths := ["a"], improvements := ["b"],
          practice_drills := ["c"], overall_score := 3 } :
        CoachingFeedback).overall_score ≤ 5) :=
  ⟨score_breakdown_in_range.2.1 _ (by simp [placeholder_scores]),
   score_breakdown_in_range.2.2 _ (by decide)⟩

/-- C3: zero duration and empty transcripts are safe.  With
`total_duration_seconds = 0` (for every transcript of well-formed words) and
likewise with an empty transcript (for every non-negative duration),
`compute_metrics` succeeds and returns `words_per_minute = 0` and
`filler_rate_per_minute = 0`: the divisions are guarded. -/
theorem compute_metrics_zero_duration_safe :
    (∀ (t : List Word) (lex : List String) (th : ℚ),
       (∀ w ∈ t, w.start ≤ w.«end») →
       ∃ r, compute_metrics t 0 lex th = .ok r ∧
         r.words_per_minute = 0 ∧ r.filler_rate_per_minute = 0) ∧
    (∀ (d : ℚ) (lex : List String) (th : ℚ), 0 ≤ d →
       ∃ r, compute_metrics [] d lex th = .ok r ∧
         r.words_per_minute = 0 ∧ r.filler_rate_per_minute = 0) := by
  constructor
  · intro t lex th hw
    have h2 : ¬ t.any (fun w => w.«end» < w.start) = true := by
      simp only [List.any_eq_true, decide_eq_true_eq, not_exists, not_and]
      intro w hmem
      exact not_lt.2 (hw w hmem)
    exact ⟨_, compute_metrics_eq_ok t 0 lex th (by norm_num) h2, by simp, by simp⟩
  · intro d lex th hd
    have h2 : ¬ ([] : List Word).any (fun w => w.«end» < w.start) = true := by simp
    refine ⟨_, compute_metrics_eq_ok [] d lex th (not_lt.2 hd) h2, ?_, ?_⟩
    · by_cases h : d = 0 <;> simp [h]
    · by_cases h : d = 0 <;> simp [h, countFillersFrom, countFillersAux]

/-- Witness for C3 at a one-word transcript with zero duration and at the
empty transcript with duration 5. -/
theorem compute_metrics_zero_duration_safe_witness :
    (∃ r, compute_metrics [⟨"hello", 0, 1⟩] 0 ["um"] 1 = .ok r ∧
       r.words_per_minute = 0 ∧ r.filler_rate_per_minute = 0) ∧
    (∃ r, compute_metrics [] 5 ["um"] 1 = .ok r ∧
       r.words_per_minute = 0 ∧ r.filler_rate_per_minute = 0) :=
  ⟨compute_metrics_zero_duration_safe.1 _ _ _ (by norm_num),
   compute_metrics_zero_duration_safe.2 _ _ _ (by norm_num)⟩

/-- C4: `compute_metrics` fails with `InvalidInput` exactly when the duration
is negative or some word has `end < start`, and succeeds with a
`MetricsReport` exactly otherwise. -/
theorem compute_metrics_invalid_iff :
    ∀ (t : List Word) (d : ℚ) (lex : List String) (th : ℚ),
      (compute_metrics t d lex th = .error .InvalidInput ↔
        d < 0 ∨ ∃ w ∈ t, w.«end» < w.start) ∧
      ((∃ r, compute_metrics t d lex th = .ok r) ↔
        ¬(d < 0 ∨ ∃ w ∈ t, w.«end» < w.start)) := by
  intro t d lex th
  unfold compute_metrics
  by_cases h1 : d < 0
  · simp [h1]
  · by_cases h2 : (t.any fun w => w.«end» < w.start) = true
    · rw [if_neg h1, if_pos h2]
      simp only [List.any_eq_true, decide_eq_true_eq] at h2
      simp [h1, h2]
    · rw [if_neg h1, if_neg h2]
      simp only [List.any_eq_true, decide_eq_true_eq] at h2
      simp [h1, h2]

/-- C5: pause computation.  The derived pauses are exactly the clamped gaps
`max 0 (next.start - prev.end)` over consecutive word pairs, every pause is
non-negative, the average is 0 when no non-zero pause exists and the
arithmetic mean of the non-zero pauses otherwise; in the spec's scenario of
a single 2.0s pause, the average is 2.0 and the long-pause count is 1. -/
theorem pause_statistics_spec :
    (∀ t : List Word,
       rawPauses t = (t.zip t.tail).map (fun pr => max 0 (pr.2.start - pr.1.«end»))) ∧
    (∀ (t : List Word) (p : ℚ), p ∈ rawPauses t → 0 ≤ p) ∧
    (∀ ps : List ℚ, nonzeroPauses ps = [] → averagePause ps = 0) ∧
    (∀ ps : List ℚ, nonzeroPauses ps ≠ [] →
       averagePause ps = (nonzeroPauses ps).sum / ((nonzeroPauses ps).length : ℚ)) ∧
    (∃ r, compute_metrics [⟨"a", 0, 1⟩, ⟨"b", 3, 4⟩] 4 [] 1 = .ok r ∧
       r.average_pause_seconds = 2 ∧ r.long_pause_count = 1) := by
  refine ⟨rawPauses_eq_zip, rawPauses_nonneg, ?_, ?_, ?_⟩
  · intro ps h
    simp [averagePause, h]
  · intro ps h
    simp [averagePause, h]
  · refine ⟨_, compute_metrics_eq_ok _ 4 [] 1 (by norm_num) (by norm_num [List.any_eq_true]),
      ?_, ?_⟩
    · show averagePause (rawPauses [⟨"a", 0, 1⟩, ⟨"b", 3, 4⟩]) = 2
      norm_num [rawPauses, averagePause, nonzeroPauses]
    · show countLong 1 (rawPauses [⟨"a", 0, 1⟩, ⟨"b", 3, 4⟩]) = 1
      norm_num [rawPauses, countLong, nonzeroPauses]

/-- Witness for C5: a concrete pause in a two-word transcript, an all-zero
pause list, and a singleton non-zero pause list. -/
theorem pause_statistics_spec_witness :
    ((0 : ℚ) ≤ 2) ∧ averagePause [0] = 0 ∧
      averagePause [2] = (nonzeroPauses [2]).sum / ((nonzeroPauses [2]).length : ℚ) :=
  ⟨pause_statistics_spec.2.1 [⟨"a", 0, 1⟩, ⟨"b", 3, 4⟩] 2
     (by norm_num [rawPauses]),
   pause_statistics_spec.2.2.1 [0] (by norm_num [nonzeroPauses]),
   pause_statistics_spec.2.2.2.1 [2] (by norm_num [nonzeroPauses])⟩

/-- C6: determinism and purity.  Two runs of the (purely functional)
embedding of `compute_metrics` on identical inputs yield identical outputs,
and the analysis step stores results that are independent of the audio
value, the wall-clock timestamp and the prior session state. -/
theorem metrics_pipeline_deterministic :
    (∀ (t : List Word) (d : ℚ) (lex : List String) (th : ℚ),
       compute_metrics t d lex th = compute_metrics t d lex th) ∧
    (∀ (a₁ a₂ : PyVal) (n₁ n₂ : String) (s₁ s₂ : SessionState),
       analyze_audio a₁ n₁ s₁ "analysis_results" = analyze_audio a₂ n₂ s₂ "analysis_results") :=
  ⟨fun _ _ _ _ => rfl, fun _ _ _ _ _ _ => rfl⟩

set_option maxRecDepth 40000 in
/-- C7: the spec's concrete scenario.  On the transcript
um / I / think / uh / it's / good with timestamps spaced 0.3s apart, filler
lexicon {um, uh} and total duration 3.0s, `compute_metrics` returns
`filler_count = 2` and `words_per_minute = 120`. -/
theorem scenario_filler_count_and_wpm :
    ∃ r, compute_metrics
        [⟨"um", 0, 2/10⟩, ⟨"I", 3/10, 5/10⟩, ⟨"think", 6/10, 8/10⟩,
         ⟨"uh", 9/10, 11/10⟩, ⟨"it\x27s", 12/10, 14/10⟩, ⟨"good", 15/10, 17/10⟩]
        3 ["um", "uh"] 1 = .ok r ∧
      r.filler_count = 2 ∧ r.words_per_minute = 120 := by
  refine ⟨_, compute_metrics_eq_ok _ _ _ _ (by norm_num) ?_, ?_, ?_⟩
  · simp
    norm_num
  · decide
  · norm_num

/-- C8: the long-pause boundary is inclusive.  A pause whose duration equals
the threshold is counted by `countLong`, and in a concrete transcript whose
single pause is exactly the default threshold 1.0s, `compute_metrics`
reports `long_pause_count = 1`. -/
theorem long_pause_boundary_inclusive :
    (∀ (th : ℚ) (ps : List ℚ), th ∈ ps → th ≠ 0 → 1 ≤ countLong th ps) ∧
    (∃ r, compute_metrics [⟨"a", 0, 1⟩, ⟨"b", 2, 3⟩] 3 [] 1 = .ok r ∧
       r.long_pause_count = 1 ∧ r.average_pause_seconds = 1) := by
  constructor
  · intro th ps hmem hne
    have h1 : th ∈ nonzeroPauses ps := by
      simp [nonzeroPauses, List.mem_filter, hmem, hne]
    have h2 : th ∈ (nonzeroPauses ps).filter (fun p => th ≤ p) := by
      simp [List.mem_filter, h1]
    have := List.length_pos.2 (List.ne_nil_of_mem h2)
    simpa [countLong] using this
  · refine ⟨_, compute_metrics_eq_ok _ 3 [] 1 (by norm_num) (by norm_num [List.any_eq_true]),
      ?_, ?_⟩
    · show countLong 1 (rawPauses [⟨"a", 0, 1⟩, ⟨"b", 2, 3⟩]) = 1
      norm_num [rawPauses, countLong, nonzeroPauses]
    · show averagePause (rawPauses [⟨"a", 0, 1⟩, ⟨"b", 2, 3⟩]) = 1
      norm_num [rawPauses, averagePause, nonzeroPauses]

/-- Witness for C8: the pause list `[1]` with threshold 1 has a counted long
pause. -/
theorem long_pause_boundary_inclusive_witness :
    1 ≤ countLong 1 [1] :=
  long_pause_boundary_inclusive.1 1 [1] (by norm_num) (by norm_num)

/-- C9 counterexample: the `CoachingFeedback` validation accepts a feedback
value whose three list fields are all empty, contradicting the claim that a
feedback value containing an empty list is rejected. -/
theorem coaching_feedback_accepts_empty_lists :
    CoachingFeedback.valid
      { strengths := [], improvements := [], practice_drills := [],
        overall_score := 3 } = true := by
  decide

/-- C9 amended: the `CoachingFeedback` validation accepts a result if and
only if the score is an integer in [1,5]; the three list-of-string fields
are type-checked but may be empty. -/
theorem coaching_feedback_valid_iff :
    ∀ f : CoachingFeedback,
      f.valid = true ↔ (1 ≤ f.overall_score ∧ f.overall_score ≤ 5) := by
  intro f
  simp [CoachingFeedback.valid]

/-- C10: `init_session_state` is idempotent and non-destructive.  A key
already present keeps its value, an absent default key is set to `None`,
keys outside the three defaults are untouched, and running the
initialization twice equals running it once. -/
theorem init_session_state_idempotent_frame :
    (∀ (s : SessionState) (k : String) (v : PyVal),
       s k = some v → init_session_state s k = some v) ∧
    (∀ (s : SessionState) (k : String), k ∈ session_default_keys →
       s k = none → init_session_state s k = some PyVal.pyNone) ∧
    (∀ (s : SessionState) (k : String), k ∉ session_default_keys →
       init_session_state s k = s k) ∧
    (∀ s : SessionState, init_session_state (init_session_state s) = init_session_state s) := by
  refine ⟨?_, ?_, ?_, ?_⟩
  · intro s k v h
    rw [init_session_state_apply]
    by_cases hk : k ∈ session_default_keys <;> simp [hk, h]
  · intro s k hk h
    rw [init_session_state_apply]
    simp [hk, h]
  · intro s k hk
    rw [init_session_state_apply, if_neg hk]
  · intro s
    funext j
    rw [init_session_state_apply, init_session_state_apply]
    by_cases hj : j ∈ session_default_keys <;> simp [hj]

/-- Witness for C10 at concrete session states: a fully populated state, the
empty state at a default key, the empty state at a foreign key, and
idempotence on the empty state. -/
theorem init_session_state_idempotent_frame_witness :
    (init_session_state (fun _ => some (PyVal.int 7)) "audio_file" = some (PyVal.int 7)) ∧
    (init_session_state (fun _ => none) "audio_file" = some PyVal.pyNone) ∧
    (init_session_state (fun _ => none) "page" = none) ∧
    (init_session_state (init_session_state fun _ => none) = init_session_state fun _ => none) :=
  ⟨init_session_state_idempotent_frame.1 _ _ _ rfl,
   init_session_state_idempotent_frame.2.1 _ _ (by simp [session_default_keys]) rfl,
   init_session_state_idempotent_frame.2.2.1 _ _ (by simp [session_default_keys]),
   init_session_state_idempotent_frame.2.2.2 _⟩

end SpeechCoach
